import Mathlib

/-!
Shallow embedding of the RSS feed monitoring engine of carter-bot
(class RSSManager): the in-memory feed registry keyed by channel and
URL, the addFeed / removeFeed / getChannelFeeds / statistics
operations, the checkFeed polling algorithm with its watermark
(lastPostId) logic, and the saveFeeds / loadFeeds persistence layer.

JavaScript Maps are modelled as association lists iterated in
insertion order; null becomes Option; JavaScript truthiness on
strings and numbers (where the source relies on it) is modelled
explicitly by the js-prefixed helpers below.
-/

namespace CarterBot

/-- Truthiness of a nullable JavaScript string: null and the empty
string are falsy. -/
def strTruthy : Option String → Bool
  | none => false
  | some s => s ≠ ""

/-- The JavaScript expression x OR null for a nullable string x:
an empty string collapses to null. -/
def jsOrNullStr : Option String → Option String
  | none => none
  | some s => if s = "" then none else some s

/-- The JavaScript expression s OR d for strings: the empty string
falls back to the default. -/
def jsOrStr (s d : String) : String := if s = "" then d else s

/-- The JavaScript expression n OR d for a nullable number: null and
zero fall back to the default. -/
def jsOrNat : Option Nat → Nat → Nat
  | none, d => d
  | some n, d => if n = 0 then d else n

/-- The JavaScript expression n OR d for a plain number: zero falls
back to the default. -/
def jsOrNat0 (n d : Nat) : Nat := if n = 0 then d else n

/-- One monitored feed entry, as stored in the in-memory registry
(the objects held in the per-channel Maps of RSSManager.feeds). -/
structure FeedData where
  url : String
  interval : Nat
  lastChecked : Option Nat
  lastPostId : Option String
  active : Bool
  title : String
  description : String
deriving Repr, DecidableEq

/-- One item of a parsed feed document (rss-parser item); guid is the
provider-assigned identifier used as the dedup cursor. -/
structure FeedItem where
  guid : String
  title : String
  link : String
deriving Repr, DecidableEq

/-- A successfully parsed feed document. -/
structure ParsedFeed where
  title : String
  description : String
  items : List FeedItem
deriving Repr, DecidableEq

/-- RSSManager configuration (this.config); only the fields the
modelled operations read. -/
structure Config where
  defaultInterval : Nat
  maxFeedsPerChannel : Nat
deriving Repr, DecidableEq

/-- The shipped default configuration. -/
def defaultConfig : Config := ⟨300000, 10⟩

/-- The per-channel feed Map: url to FeedData, in insertion order. -/
abbrev ChannelFeeds := List (String × FeedData)

/-- The registry this.feeds: channelId to per-channel Map. -/
abbrev Registry := List (String × ChannelFeeds)

/-- Map.get. -/
def mapGet (k : String) : List (String × α) → Option α
  | [] => none
  | (k1, v) :: rest => if k1 = k then some v else mapGet k rest

/-- Map.has. -/
def mapHas (k : String) (m : List (String × α)) : Bool :=
  (mapGet k m).isSome

/-- Map.set: replace in place if the key exists, else append. -/
def mapSet (k : String) (v : α) : List (String × α) → List (String × α)
  | [] => [(k, v)]
  | (k1, v1) :: rest =>
    if k1 = k then (k, v) :: rest else (k1, v1) :: mapSet k v rest

/-- Map.delete. -/
def mapDelete (k : String) : List (String × α) → List (String × α)
  | [] => []
  | (k1, v1) :: rest =>
    if k1 = k then rest else (k1, v1) :: mapDelete k rest

/-- The feed entries currently registered for a destination (empty
when the destination key is absent). -/
def entriesOf (channelId : String) (feeds : Registry) : ChannelFeeds :=
  (mapGet channelId feeds).getD []

/-- Outcome of RSSManager.addFeed, one constructor per return site of
the source function. -/
inductive AddOutcome where
  | invalidFeed (err : String)
  | limitExceeded
  | alreadyExists
  | added (fd : FeedData)
deriving Repr, DecidableEq

/-- RSSManager.addFeed. The synchronous validation poll is passed in
as validated (none when parser.parseURL rejected the URL). Mirrors
the source order: validate, create the channel Map if absent, check
capacity, check duplicate, insert, and returns the outcome together
with the updated registry. -/
def addFeed (cfg : Config) (channelId feedUrl : String) (interval : Option Nat)
    (validated : Option ParsedFeed) (feeds : Registry) : AddOutcome × Registry :=
  match validated with
  | none => (AddOutcome.invalidFeed "Invalid RSS feed", feeds)
  | some feed =>
    let feeds1 := if mapHas channelId feeds then feeds else mapSet channelId [] feeds
    let channelFeeds := entriesOf channelId feeds1
    if cfg.maxFeedsPerChannel ≤ channelFeeds.length then
      (AddOutcome.limitExceeded, feeds1)
    else if mapHas feedUrl channelFeeds then
      (AddOutcome.alreadyExists, feeds1)
    else
      let fd : FeedData :=
        ⟨feedUrl, jsOrNat interval cfg.defaultInterval, none, none, true,
          jsOrStr feed.title "Unknown Feed", jsOrStr feed.description ""⟩
      (AddOutcome.added fd, mapSet channelId (mapSet feedUrl fd channelFeeds) feeds1)

/-- Outcome of RSSManager.removeFeed, one constructor per return site. -/
inductive RemoveOutcome where
  | noChannel
  | notFound
  | removed (fd : FeedData)
deriving Repr, DecidableEq

/-- RSSManager.removeFeed: delete the entry, and delete the channel
key itself when its Map becomes empty. -/
def removeFeed (channelId feedUrl : String) (feeds : Registry) : RemoveOutcome × Registry :=
  match mapGet channelId feeds with
  | none => (RemoveOutcome.noChannel, feeds)
  | some channelFeeds =>
    match mapGet feedUrl channelFeeds with
    | none => (RemoveOutcome.notFound, feeds)
    | some fd =>
      let cf2 := mapDelete feedUrl channelFeeds
      if cf2.length = 0 then
        (RemoveOutcome.removed fd, mapDelete channelId feeds)
      else
        (RemoveOutcome.removed fd, mapSet channelId cf2 feeds)

/-- One row of the listing returned by RSSManager.getChannelFeeds. -/
structure FeedListing where
  url : String
  title : String
  description : String
  active : Bool
  lastChecked : Option Nat
  interval : Nat
deriving Repr, DecidableEq

/-- RSSManager.getChannelFeeds: empty for an unknown channel, else
one listing row per entry in Map order. -/
def getChannelFeeds (channelId : String) (feeds : Registry) : List FeedListing :=
  match mapGet channelId feeds with
  | none => []
  | some channelFeeds =>
    channelFeeds.map (fun p =>
      ⟨p.1, p.2.title, p.2.description, p.2.active, p.2.lastChecked, p.2.interval⟩)

/-- RSSManager.postFeedItem: fetches the channel and sends the embed;
every error is caught inside the function, which therefore always
returns normally. The external delivery capability is the deliverOk
oracle; the returned Bool records whether the send succeeded. -/
def postFeedItem (deliverOk : FeedItem → Bool) (item : FeedItem) : Bool :=
  deliverOk item

/-- The delivery loop of RSSManager.checkFeed: posts the batch one
item at a time, recording each outcome; postFeedItem never throws,
so every item of the batch is attempted. -/
def dispatchAll (deliverOk : FeedItem → Bool) : List FeedItem → List (FeedItem × Bool)
  | [] => []
  | item :: rest => (item, postFeedItem deliverOk item) :: dispatchAll deliverOk rest

/-- The condition guarding the new-item branch of checkFeed:
not feedInfo.lastPostId, or feedInfo.lastPostId strictly unequal to
the guid of the first item. -/
def firstCheckOrNew (lastPostId : Option String) (latestGuid : String) : Bool :=
  !strTruthy lastPostId || lastPostId != some latestGuid

/-- The item-collection loop of checkFeed: walk the document in
provider order, stop at the item whose guid equals a truthy
lastPostId, push otherwise, and stop once 5 items are collected. -/
def collectNewItems (lastPostId : Option String) (acc : List FeedItem) :
    List FeedItem → List FeedItem
  | [] => acc
  | item :: rest =>
    if strTruthy lastPostId && some item.guid == lastPostId then acc
    else
      let acc2 := acc ++ [item]
      if 5 ≤ acc2.length then acc2
      else collectNewItems lastPostId acc2 rest

/-- The observable result of one RSSManager.checkFeed invocation:
the registry afterwards, the delivery attempts in posting order with
their outcomes, whether saveFeeds was invoked, and whether the
document was fetched at all. -/
structure CheckResult where
  feeds : Registry
  delivered : List (FeedItem × Bool)
  saved : Bool
  fetched : Bool
deriving Repr, DecidableEq

/-- RSSManager.checkFeed. hasClient models this.client being set;
fetched is the result of parser.parseURL (none when it threw, in
which case the catch block only logs and changes no state). On a
successful parse the cached title and description are refreshed, the
new-item branch runs when the watermark is absent or differs from
the first guid, the capped batch is posted oldest-first, the
watermark is set to the first guid, lastChecked is set, and the
registry is saved. -/
def checkFeed (hasClient : Bool) (feeds : Registry)
    (channelId feedUrl : String) (fetched : Option ParsedFeed)
    (deliverOk : FeedItem → Bool) (now : Nat) : CheckResult :=
  if hasClient = false then ⟨feeds, [], false, false⟩ else
  match mapGet channelId feeds with
  | none => ⟨feeds, [], false, false⟩
  | some channelFeeds =>
    match mapGet feedUrl channelFeeds with
    | none => ⟨feeds, [], false, false⟩
    | some feedInfo =>
      if feedInfo.active = false then ⟨feeds, [], false, false⟩ else
      match fetched with
      | none => ⟨feeds, [], false, true⟩
      | some feed =>
        let fi1 : FeedData := { feedInfo with title := feed.title, description := feed.description }
        match feed.items with
        | [] =>
          let fi2 : FeedData := { fi1 with lastChecked := some now }
          ⟨mapSet channelId (mapSet feedUrl fi2 channelFeeds) feeds, [], true, true⟩
        | latest :: _ =>
          if firstCheckOrNew fi1.lastPostId latest.guid then
            let newItems := (collectNewItems fi1.lastPostId [] feed.items).reverse
            let outcomes := dispatchAll deliverOk newItems
            let fi2 : FeedData :=
              { fi1 with lastPostId := some latest.guid, lastChecked := some now }
            ⟨mapSet channelId (mapSet feedUrl fi2 channelFeeds) feeds, outcomes, true, true⟩
          else
            let fi2 : FeedData := { fi1 with lastChecked := some now }
            ⟨mapSet channelId (mapSet feedUrl fi2 channelFeeds) feeds, [], true, true⟩

/-- One persisted record of the feeds.json snapshot (the object
written per feed by saveFeeds). -/
structure SavedFeed where
  url : String
  interval : Nat
  lastChecked : Option Nat
  lastPostId : Option String
  active : Bool
  title : String
  description : String
deriving Repr, DecidableEq

/-- The snapshot layout of feeds.json: records grouped by channel. -/
abbrev Snapshot := List (String × List (String × SavedFeed))

/-- The per-entry serialization inside RSSManager.saveFeeds: every
field is written as stored. -/
def saveEntry (fd : FeedData) : SavedFeed :=
  ⟨fd.url, fd.interval, fd.lastChecked, fd.lastPostId, fd.active, fd.title, fd.description⟩

/-- RSSManager.saveFeeds: serialize the whole registry, channel by
channel in Map order. -/
def saveFeeds (feeds : Registry) : Snapshot :=
  feeds.map (fun c => (c.1, c.2.map (fun p => (p.1, saveEntry p.2))))

/-- The per-entry deserialization inside RSSManager.loadFeeds, with
its JavaScript-falsy defaulting: interval OR defaultInterval,
lastPostId OR null, active strictly unequal to false, title OR
Unknown Feed, description OR empty. -/
def loadEntry (cfg : Config) (s : SavedFeed) : FeedData :=
  ⟨s.url, jsOrNat0 s.interval cfg.defaultInterval, s.lastChecked,
    jsOrNullStr s.lastPostId, !(s.active == false),
    jsOrStr s.title "Unknown Feed", jsOrStr s.description ""⟩

/-- The inner loop of loadFeeds: insert every saved record of one
channel into that channel Map. -/
def loadChannel (cfg : Config) (saved : List (String × SavedFeed))
    (existing : ChannelFeeds) : ChannelFeeds :=
  match saved with
  | [] => existing
  | (u, s) :: rest => loadChannel cfg rest (mapSet u (loadEntry cfg s) existing)

/-- The outer loop of loadFeeds: for each channel of the snapshot,
create its Map if absent and merge the saved records into it. -/
def loadAll (cfg : Config) (data : Snapshot) (feeds : Registry) : Registry :=
  match data with
  | [] => feeds
  | (ch, cf) :: rest =>
    let feeds1 := if mapHas ch feeds then feeds else mapSet ch [] feeds
    let existing := entriesOf ch feeds1
    loadAll cfg rest (mapSet ch (loadChannel cfg cf existing) feeds1)

/-- RSSManager.loadFeeds: when the feeds file does not exist the
registry is left as it was (empty at initialization); otherwise the
snapshot is merged in. -/
def loadFeeds (cfg : Config) (file : Option Snapshot) (feeds : Registry) : Registry :=
  match file with
  | none => feeds
  | some data => loadAll cfg data feeds

/-- RSSManager.getTotalFeedCount. -/
def getTotalFeedCount (feeds : Registry) : Nat :=
  (feeds.map (fun p => p.2.length)).sum

/-- The totalChannels field of RSSManager.getStatistics:
this.feeds.size. -/
def statsTotalChannels (feeds : Registry) : Nat := feeds.length

/-- Every channel of the registry holds at most the configured
maximum number of feeds. -/
def sizeInv (cfg : Config) (feeds : Registry) : Prop :=
  ∀ p ∈ feeds, p.2.length ≤ cfg.maxFeedsPerChannel

instance (cfg : Config) (feeds : Registry) : Decidable (sizeInv cfg feeds) :=
  inferInstanceAs (Decidable (∀ p ∈ feeds, p.2.length ≤ cfg.maxFeedsPerChannel))

/-- Every channel key of the registry maps to a non-empty feed Map. -/
def nonEmptyInv (feeds : Registry) : Prop :=
  ∀ p ∈ feeds, p.2 ≠ []

instance (feeds : Registry) : Decidable (nonEmptyInv feeds) :=
  inferInstanceAs (Decidable (∀ p ∈ feeds, p.2 ≠ []))

/-- The fields of a feed entry that the persistence round-trip is
claimed to reproduce: url, interval, watermark, active flag. -/
structure CoreView where
  url : String
  interval : Nat
  lastPostId : Option String
  active : Bool
deriving Repr, DecidableEq

/-- Project one entry to its claimed-round-trip fields. -/
def coreOf (fd : FeedData) : CoreView :=
  ⟨fd.url, fd.interval, fd.lastPostId, fd.active⟩

/-- Project a registry to destinations, URLs and the claimed fields. -/
def registryView (r : Registry) : List (String × List (String × CoreView)) :=
  r.map (fun c => (c.1, c.2.map (fun p => (p.1, coreOf p.2))))

/-- Well-formedness of a registry for the round-trip statement: keys
are unique (an intrinsic JavaScript Map invariant), no watermark is
the empty string, and no interval is zero. -/
def wfRegistry (r : Registry) : Prop :=
  (r.map Prod.fst).Nodup ∧
  (∀ c ∈ r, (c.2.map Prod.fst).Nodup) ∧
  (∀ c ∈ r, ∀ p ∈ c.2, p.2.lastPostId ≠ some "" ∧ p.2.interval ≠ 0)

instance (r : Registry) : Decidable (wfRegistry r) := by
  unfold wfRegistry
  infer_instance

/-- Concrete fixture: a fresh feed entry with no watermark. -/
def fdFresh : FeedData := ⟨"u", 300000, none, none, true, "T", "D"⟩

/-- Concrete fixture: a feed entry whose watermark is the guid B. -/
def fdB : FeedData := ⟨"u", 300000, none, some "B", true, "T", "D"⟩

/-- Concrete fixture: a feed entry whose watermark is the empty
string (reachable: checkFeed stores the first guid verbatim). -/
def fdEmptyGuid : FeedData := ⟨"u", 300000, some 3, some "", true, "T", "D"⟩

/-- Concrete fixture: a one-item document. -/
def docOne : ParsedFeed := ⟨"T", "D", [⟨"g1", "t1", "l1"⟩]⟩

/-- Concrete fixture: the newest item A of the three-item document. -/
def itA : FeedItem := ⟨"A", "tA", "lA"⟩

/-- Concrete fixture: the middle item B of the three-item document. -/
def itB : FeedItem := ⟨"B", "tB", "lB"⟩

/-- Concrete fixture: the oldest item C of the three-item document. -/
def itC : FeedItem := ⟨"C", "tC", "lC"⟩

/-- Concrete fixture: a document with items A, B, C newest-first. -/
def docABC : ParsedFeed := ⟨"T", "D", [itA, itB, itC]⟩

/-- Concrete fixture: a feed entry whose watermark is the guid W. -/
def fdW : FeedData := ⟨"u", 300000, none, some "W", true, "T", "D"⟩

/-- Concrete fixture: the n-th fresh item of the ten-item document. -/
def itG (n : Nat) : FeedItem := ⟨"g" ++ toString n, "", ""⟩

/-- Concrete fixture: the watermark item of the ten-item document. -/
def itW : FeedItem := ⟨"W", "", ""⟩

/-- Concrete fixture: a document with eight items newer than the
watermark item W, then W, then one older item. -/
def docBig : ParsedFeed :=
  ⟨"T", "D", [itG 1, itG 2, itG 3, itG 4, itG 5, itG 6, itG 7, itG 8, itW] ++ [⟨"old", "", ""⟩]⟩

/-- Concrete fixture: an inactive feed entry. -/
def fdInactive : FeedData := ⟨"u", 300000, none, none, false, "T", "D"⟩

/-- Concrete fixture: an active entry at a given url. -/
def fdAt (u : String) : FeedData := ⟨u, 300000, none, none, true, "t", ""⟩

/-- Concrete fixture: a channel Map at the default capacity of 10,
holding the urls u0 through u9. -/
def cfFull : ChannelFeeds :=
  [("u0", fdAt "u0"), ("u1", fdAt "u1"), ("u2", fdAt "u2"), ("u3", fdAt "u3"),
   ("u4", fdAt "u4"), ("u5", fdAt "u5"), ("u6", fdAt "u6"), ("u7", fdAt "u7"),
   ("u8", fdAt "u8"), ("u9", fdAt "u9")]

/-- Concrete fixture: a registry whose single channel is at the
default capacity. -/
def regFull : Registry := [("c", cfFull)]

theorem mapGet_mapSet_self (k : String) (v : α) (m : List (String × α)) :
    mapGet k (mapSet k v m) = some v := by
  induction m with
  | nil => simp [mapSet, mapGet]
  | cons hd tl ih =>
    obtain ⟨k1, v1⟩ := hd
    by_cases h : k1 = k
    · simp [mapSet, mapGet, h]
    · simp [mapSet, mapGet, h, ih]

theorem mapGet_mapSet_ne (k k1 : String) (v : α) (m : List (String × α))
    (h : k1 ≠ k) : mapGet k1 (mapSet k v m) = mapGet k1 m := by
  induction m with
  | nil => simp [mapSet, mapGet, Ne.symm h]
  | cons hd tl ih =>
    obtain ⟨k2, v2⟩ := hd
    by_cases h2 : k2 = k
    · subst h2
      simp [mapSet, mapGet, Ne.symm h]
    · simp only [mapSet, if_neg h2, mapGet]
      by_cases h3 : k2 = k1
      · simp [h3]
      · simp [h3, ih]

theorem mapHas_of_mapGet_some (k : String) (v : α) (m : List (String × α))
    (h : mapGet k m = some v) : mapHas k m = true := by
  simp [mapHas, h]

theorem mem_mapSet (k : String) (v : α) (m : List (String × α)) (p : String × α)
    (h : p ∈ mapSet k v m) : p = (k, v) ∨ p ∈ m := by
  induction m with
  | nil => simpa [mapSet] using h
  | cons hd tl ih =>
    obtain ⟨k1, v1⟩ := hd
    by_cases h1 : k1 = k
    · rw [mapSet, if_pos h1] at h
      rcases List.mem_cons.mp h with h2 | h2
      · exact Or.inl h2
      · exact Or.inr (List.mem_cons_of_mem _ h2)
    · rw [mapSet, if_neg h1] at h
      rcases List.mem_cons.mp h with h2 | h2
      · exact Or.inr (List.mem_cons.mpr (Or.inl h2))
      · rcases ih h2 with h3 | h3
        · exact Or.inl h3
        · exact Or.inr (List.mem_cons_of_mem _ h3)

theorem length_mapSet_has (k : String) (v : α) (m : List (String × α))
    (h : mapHas k m = true) : (mapSet k v m).length = m.length := by
  induction m with
  | nil => simp [mapHas, mapGet] at h
  | cons hd tl ih =>
    obtain ⟨k1, v1⟩ := hd
    by_cases h1 : k1 = k
    · simp [mapSet, h1]
    · simp only [mapHas, mapGet, if_neg h1] at h
      simp [mapSet, if_neg h1, ih h]

theorem length_mapSet_not (k : String) (v : α) (m : List (String × α))
    (h : mapHas k m = false) : (mapSet k v m).length = m.length + 1 := by
  induction m with
  | nil => simp [mapSet]
  | cons hd tl ih =>
    obtain ⟨k1, v1⟩ := hd
    by_cases h1 : k1 = k
    · simp [mapHas, mapGet, h1] at h
    · simp only [mapHas, mapGet, if_neg h1] at h
      simp [mapSet, if_neg h1, ih h]

theorem mem_mapDelete (k : String) (m : List (String × α)) (p : String × α)
    (h : p ∈ mapDelete k m) : p ∈ m := by
  induction m with
  | nil => simp [mapDelete] at h
  | cons hd tl ih =>
    obtain ⟨k1, v1⟩ := hd
    by_cases h1 : k1 = k
    · simp only [mapDelete, if_pos h1] at h
      exact List.mem_cons_of_mem _ h
    · simp only [mapDelete, if_neg h1, List.mem_cons] at h
      rcases h with h | h
      · simp [h]
      · exact List.mem_cons_of_mem _ (ih h)

theorem mapSet_of_not_has (k : String) (v : α) (m : List (String × α))
    (h : mapHas k m = false) : mapSet k v m = m ++ [(k, v)] := by
  induction m with
  | nil => simp [mapSet]
  | cons hd tl ih =>
    obtain ⟨k1, v1⟩ := hd
    by_cases h1 : k1 = k
    · simp [mapHas, mapGet, h1] at h
    · simp only [mapHas, mapGet, if_neg h1] at h
      simp [mapSet, if_neg h1, ih h]

theorem mapGet_append_of_not_has (k : String) (m1 m2 : List (String × α))
    (h : mapHas k m1 = false) : mapGet k (m1 ++ m2) = mapGet k m2 := by
  induction m1 with
  | nil => simp
  | cons hd tl ih =>
    obtain ⟨k1, v1⟩ := hd
    by_cases h1 : k1 = k
    · simp [mapHas, mapGet, h1] at h
    · simp only [mapHas, mapGet, if_neg h1] at h
      simp [mapGet, if_neg h1, ih h]

theorem mapSet_append_last (k : String) (v w : α) (m : List (String × α))
    (h : mapHas k m = false) : mapSet k v (m ++ [(k, w)]) = m ++ [(k, v)] := by
  induction m with
  | nil => simp [mapSet]
  | cons hd tl ih =>
    obtain ⟨k1, v1⟩ := hd
    by_cases h1 : k1 = k
    · simp [mapHas, mapGet, h1] at h
    · simp only [mapHas, mapGet, if_neg h1] at h
      simp [mapSet, if_neg h1, ih h]

theorem map_fst_dispatchAll (deliverOk : FeedItem → Bool) (items : List FeedItem) :
    (dispatchAll deliverOk items).map Prod.fst = items := by
  induction items with
  | nil => rfl
  | cons hd tl ih => simp [dispatchAll, ih]

theorem collectNewItems_falsy (lp : Option String) (h : strTruthy lp = false)
    (items acc : List FeedItem) (hlen : acc.length < 5) :
    collectNewItems lp acc items = acc ++ items.take (5 - acc.length) := by
  induction items generalizing acc with
  | nil => simp [collectNewItems]
  | cons hd tl ih =>
    simp only [collectNewItems, h, Bool.false_and, Bool.false_eq_true, if_false]
    by_cases h5 : 5 ≤ (acc ++ [hd]).length
    · simp only [if_pos h5]
      simp only [List.length_append, List.length_cons, List.length_nil] at h5
      have hacc : acc.length = 4 := by omega
      have : 5 - acc.length = 1 := by omega
      simp [this, List.take_succ_cons]
    · simp only [if_neg h5]
      simp only [List.length_append, List.length_cons, List.length_nil] at h5
      have hlt : (acc ++ [hd]).length < 5 := by simp; omega
      rw [ih (acc ++ [hd]) hlt]
      have : 5 - acc.length = (5 - (acc ++ [hd]).length) + 1 := by simp; omega
      simp [this, List.take_succ_cons]

/-- Claim C1, counterexample: a feed entry whose watermark is absent
and a successfully parsed one-item document; the poll delivers one
item, not zero, refuting baseline suppression. -/
theorem c1_baseline_suppression_refuted :
    fdFresh.lastPostId = none ∧ docOne.items ≠ [] ∧
    (checkFeed true [("c", [("u", fdFresh)])] "c" "u" (some docOne)
        (fun _ => true) 7).delivered ≠ [] := by
  decide

/-- Claim C1, amended: for every feed entry whose watermark is absent
and every successfully parsed non-empty document, the poll delivers
the newest up to five items of the document (oldest-first) rather
than zero items, and sets the watermark to the identifier of the
first item (newest by provider order). -/
theorem c1_first_poll_delivers_newest_five (feeds : Registry) (channelId feedUrl : String)
    (cf : ChannelFeeds) (fi : FeedData) (feed : ParsedFeed) (latest : FeedItem)
    (rest : List FeedItem) (deliverOk : FeedItem → Bool) (now : Nat)
    (hc : mapGet channelId feeds = some cf)
    (hu : mapGet feedUrl cf = some fi)
    (ha : fi.active = true)
    (hw : fi.lastPostId = none)
    (hi : feed.items = latest :: rest) :
    (checkFeed true feeds channelId feedUrl (some feed) deliverOk now).delivered.map Prod.fst
      = (feed.items.take 5).reverse ∧
    mapGet feedUrl (entriesOf channelId
        (checkFeed true feeds channelId feedUrl (some feed) deliverOk now).feeds)
      = some { fi with
               title := feed.title, description := feed.description,
               lastPostId := some latest.guid, lastChecked := some now } := by
  have hfc : firstCheckOrNew fi.lastPostId latest.guid = true := by
    simp [firstCheckOrNew, hw, strTruthy]
  have hcol : collectNewItems fi.lastPostId [] (latest :: rest) = (latest :: rest).take 5 := by
    have := collectNewItems_falsy fi.lastPostId (by simp [hw, strTruthy])
      (latest :: rest) [] (by simp)
    simpa using this
  simp only [checkFeed, hc, hu, ha, hi, hfc]
  constructor
  · simp [map_fst_dispatchAll, hcol, hi]
  · simp [entriesOf, mapGet_mapSet_self]

/-- Claim C1, witness for the amended theorem at a concrete input. -/
theorem c1_first_poll_witness :
    (checkFeed true [("c", [("u", fdFresh)])] "c" "u" (some docOne)
        (fun _ => true) 7).delivered.map Prod.fst
      = (docOne.items.take 5).reverse ∧
    mapGet "u" (entriesOf "c"
        (checkFeed true [("c", [("u", fdFresh)])] "c" "u" (some docOne)
          (fun _ => true) 7).feeds)
      = some { fdFresh with
               title := docOne.title, description := docOne.description,
               lastPostId := some (FeedItem.mk "g1" "t1" "l1").guid, lastChecked := some 7 } :=
  c1_first_poll_delivers_newest_five _ _ _ _ _ _ _ _ _ _ rfl rfl rfl rfl rfl

/-- Success-path characterization of checkFeed when the new-item
branch fires: the batch is the capped collection reversed, and the
entry gets the refreshed metadata, the new watermark and the new
lastChecked. -/
theorem checkFeed_new_branch (feeds : Registry) (channelId feedUrl : String)
    (cf : ChannelFeeds) (fi : FeedData) (feed : ParsedFeed) (latest : FeedItem)
    (restItems : List FeedItem) (deliverOk : FeedItem → Bool) (now : Nat)
    (hc : mapGet channelId feeds = some cf)
    (hu : mapGet feedUrl cf = some fi)
    (ha : fi.active = true)
    (hi : feed.items = latest :: restItems)
    (hfc : firstCheckOrNew fi.lastPostId latest.guid = true) :
    checkFeed true feeds channelId feedUrl (some feed) deliverOk now =
      ⟨mapSet channelId (mapSet feedUrl
          { fi with
            title := feed.title, description := feed.description,
            lastPostId := some latest.guid, lastChecked := some now } cf) feeds,
        dispatchAll deliverOk ((collectNewItems fi.lastPostId [] (latest :: restItems)).reverse),
        true, true⟩ := by
  simp [checkFeed, hc, hu, ha, hi, hfc]

/-- Success-path characterization of checkFeed when the watermark
already equals the first guid: nothing is delivered, metadata and
lastChecked are refreshed, the watermark stays. -/
theorem checkFeed_old_branch (feeds : Registry) (channelId feedUrl : String)
    (cf : ChannelFeeds) (fi : FeedData) (feed : ParsedFeed) (latest : FeedItem)
    (restItems : List FeedItem) (deliverOk : FeedItem → Bool) (now : Nat)
    (hc : mapGet channelId feeds = some cf)
    (hu : mapGet feedUrl cf = some fi)
    (ha : fi.active = true)
    (hi : feed.items = latest :: restItems)
    (hfc : firstCheckOrNew fi.lastPostId latest.guid = false) :
    checkFeed true feeds channelId feedUrl (some feed) deliverOk now =
      ⟨mapSet channelId (mapSet feedUrl
          { fi with
            title := feed.title, description := feed.description,
            lastChecked := some now } cf) feeds,
        [], true, true⟩ := by
  simp [checkFeed, hc, hu, ha, hi, hfc]

/-- Claim C2: with watermark equal to the identifier of B and a
document whose items in provider (newest-first) order are A, B, C,
the poll delivers exactly the items strictly before B, here the
single item A (a batch of one is also its oldest-first order), and
the watermark afterwards equals the identifier of the first item A;
the watermark is located by identifier match on the guid, not by
position. -/
theorem c2_dedup_delivers_items_before_watermark (feeds : Registry)
    (channelId feedUrl : String) (cf : ChannelFeeds) (fi : FeedData)
    (feed : ParsedFeed) (a b c : FeedItem) (deliverOk : FeedItem → Bool) (now : Nat)
    (hc : mapGet channelId feeds = some cf)
    (hu : mapGet feedUrl cf = some fi)
    (ha : fi.active = true)
    (hw : fi.lastPostId = some b.guid)
    (hb : b.guid ≠ "")
    (hab : a.guid ≠ b.guid)
    (hi : feed.items = [a, b, c]) :
    (checkFeed true feeds channelId feedUrl (some feed) deliverOk now).delivered.map Prod.fst
      = [a] ∧
    mapGet feedUrl (entriesOf channelId
        (checkFeed true feeds channelId feedUrl (some feed) deliverOk now).feeds)
      = some { fi with
               title := feed.title, description := feed.description,
               lastPostId := some a.guid, lastChecked := some now } := by
  have hfc : firstCheckOrNew fi.lastPostId a.guid = true := by
    simp [firstCheckOrNew, hw, strTruthy, hb, Ne.symm hab]
  have hcol : collectNewItems fi.lastPostId [] [a, b, c] = [a] := by
    simp [collectNewItems, hw, strTruthy, hb, hab]
  have e1 := checkFeed_new_branch feeds channelId feedUrl cf fi feed a [b, c]
    deliverOk now hc hu ha hi hfc
  rw [e1]
  constructor
  · simp [map_fst_dispatchAll, hcol]
  · simp [entriesOf, mapGet_mapSet_self]

/-- Claim C2, witness at a concrete input. -/
theorem c2_dedup_witness :
    (checkFeed true [("c", [("u", fdB)])] "c" "u" (some docABC)
        (fun _ => true) 7).delivered.map Prod.fst = [itA] ∧
    mapGet "u" (entriesOf "c"
        (checkFeed true [("c", [("u", fdB)])] "c" "u" (some docABC)
          (fun _ => true) 7).feeds)
      = some { fdB with
               title := docABC.title, description := docABC.description,
               lastPostId := some itA.guid, lastChecked := some 7 } :=
  c2_dedup_delivers_items_before_watermark [("c", [("u", fdB)])] "c" "u"
    [("u", fdB)] fdB docABC itA itB itC (fun _ => true) 7
    rfl rfl rfl rfl (by decide) (by decide) rfl

/-- Claim C3: with a set watermark and a document holding eight items
newer than the watermark item, the poll delivers exactly five items,
the five most recent unseen ones in oldest-first order, and sets the
watermark to the identifier of the newest item of the whole
document; a subsequent poll of the same document then delivers
nothing, so the three older undelivered items are not delivered on a
later cycle over this document. -/
theorem c3_cap_five_and_advance_watermark (feeds : Registry)
    (channelId feedUrl : String) (cf : ChannelFeeds) (fi : FeedData)
    (feed : ParsedFeed) (n1 n2 n3 n4 n5 n6 n7 n8 w : FeedItem) (rest : List FeedItem)
    (deliverOk deliverOk2 : FeedItem → Bool) (now now2 : Nat)
    (hc : mapGet channelId feeds = some cf)
    (hu : mapGet feedUrl cf = some fi)
    (ha : fi.active = true)
    (hw : fi.lastPostId = some w.guid)
    (hwg : w.guid ≠ "")
    (h1 : n1.guid ≠ w.guid) (h2 : n2.guid ≠ w.guid) (h3 : n3.guid ≠ w.guid)
    (h4 : n4.guid ≠ w.guid) (h5 : n5.guid ≠ w.guid)
    (hn1 : n1.guid ≠ "")
    (hi : feed.items = [n1, n2, n3, n4, n5, n6, n7, n8, w] ++ rest) :
    (checkFeed true feeds channelId feedUrl (some feed) deliverOk now).delivered.map Prod.fst
      = [n5, n4, n3, n2, n1] ∧
    mapGet feedUrl (entriesOf channelId
        (checkFeed true feeds channelId feedUrl (some feed) deliverOk now).feeds)
      = some { fi with
               title := feed.title, description := feed.description,
               lastPostId := some n1.guid, lastChecked := some now } ∧
    (checkFeed true
        (checkFeed true feeds channelId feedUrl (some feed) deliverOk now).feeds
        channelId feedUrl (some feed) deliverOk2 now2).delivered = [] := by
  have hi1 : feed.items = n1 :: ([n2, n3, n4, n5, n6, n7, n8, w] ++ rest) := by
    simpa using hi
  have hfc : firstCheckOrNew fi.lastPostId n1.guid = true := by
    simp [firstCheckOrNew, hw, strTruthy, hwg, Ne.symm h1]
  have hcol : collectNewItems fi.lastPostId []
      (n1 :: n2 :: n3 :: n4 :: n5 :: n6 :: n7 :: n8 :: w :: rest) = [n1, n2, n3, n4, n5] := by
    simp [collectNewItems, hw, strTruthy, hwg, h1, h2, h3, h4, h5]
  have e1 := checkFeed_new_branch feeds channelId feedUrl cf fi feed n1
    ([n2, n3, n4, n5, n6, n7, n8, w] ++ rest) deliverOk now hc hu ha hi1 hfc
  refine ⟨?_, ?_, ?_⟩
  · rw [e1]
    simp [map_fst_dispatchAll, hcol]
  · rw [e1]
    simp [entriesOf, mapGet_mapSet_self]
  · rw [e1]
    rw [checkFeed_old_branch _ channelId feedUrl _ _ feed n1
      ([n2, n3, n4, n5, n6, n7, n8, w] ++ rest) deliverOk2 now2
      (mapGet_mapSet_self _ _ _) (mapGet_mapSet_self _ _ _) (by simp [ha]) hi1
      (by simp [firstCheckOrNew, strTruthy, hn1])]

/-- Claim C3, witness at a concrete input. -/
theorem c3_cap_witness :
    (checkFeed true [("c", [("u", fdW)])] "c" "u" (some docBig)
        (fun _ => true) 7).delivered.map Prod.fst
      = [itG 5, itG 4, itG 3, itG 2, itG 1] ∧
    mapGet "u" (entriesOf "c"
        (checkFeed true [("c", [("u", fdW)])] "c" "u" (some docBig)
          (fun _ => true) 7).feeds)
      = some { fdW with
               title := docBig.title, description := docBig.description,
               lastPostId := some (itG 1).guid, lastChecked := some 7 } ∧
    (checkFeed true
        (checkFeed true [("c", [("u", fdW)])] "c" "u" (some docBig)
          (fun _ => true) 7).feeds
        "c" "u" (some docBig) (fun _ => false) 9).delivered = [] :=
  c3_cap_five_and_advance_watermark [("c", [("u", fdW)])] "c" "u" [("u", fdW)]
    fdW docBig (itG 1) (itG 2) (itG 3) (itG 4) (itG 5) (itG 6) (itG 7) (itG 8) itW
    [FeedItem.mk "old" "" ""] (fun _ => true) (fun _ => false) 7 9
    rfl rfl rfl (by decide) (by decide) (by decide) (by decide) (by decide)
    (by decide) (by decide) (by decide) rfl

/-- Claim C4, counterexample: a poll of an active entry whose fetch
fails; the code leaves the registry fully unchanged and in
particular does not advance lastChecked to the poll time, refuting
the part of the claim that says lastChecked still advances. -/
theorem c4_lastchecked_not_advanced_on_failure :
    (checkFeed true [("c", [("u", fdB)])] "c" "u" none (fun _ => true) 7).feeds
      = [("c", [("u", fdB)])] ∧
    (mapGet "u" (entriesOf "c" (checkFeed true [("c", [("u", fdB)])] "c" "u" none
        (fun _ => true) 7).feeds)).map FeedData.lastChecked ≠ some (some 7) := by
  decide

/-- Claim C4, amended: a poll whose fetch/parse step fails leaves the
watermark unchanged, leaves lastChecked unchanged as well (the catch
block only logs; the code does not advance lastChecked on failure),
delivers zero items, performs no save, and modifies no registry
state at all. -/
theorem c4_fetch_failure_changes_nothing (hasClient : Bool) (feeds : Registry)
    (channelId feedUrl : String) (deliverOk : FeedItem → Bool) (now : Nat) :
    (checkFeed hasClient feeds channelId feedUrl none deliverOk now).feeds = feeds ∧
    (checkFeed hasClient feeds channelId feedUrl none deliverOk now).delivered = [] ∧
    (checkFeed hasClient feeds channelId feedUrl none deliverOk now).saved = false := by
  cases hasClient with
  | false => simp [checkFeed]
  | true =>
    simp only [checkFeed]
    cases hc : mapGet channelId feeds with
    | none => simp
    | some cf =>
      cases hu : mapGet feedUrl cf with
      | none => simp [hu]
      | some fi =>
        by_cases ha : fi.active = false <;> simp [hu, ha]

/-- Claim C9: checkFeed on an entry whose active flag is false
returns without fetching the document, delivers nothing, performs no
save, and leaves the whole registry (watermark, lastChecked, title,
description) untouched. -/
theorem c9_inactive_entry_untouched (feeds : Registry) (channelId feedUrl : String)
    (cf : ChannelFeeds) (fi : FeedData) (fetched : Option ParsedFeed)
    (deliverOk : FeedItem → Bool) (now : Nat)
    (hc : mapGet channelId feeds = some cf)
    (hu : mapGet feedUrl cf = some fi)
    (ha : fi.active = false) :
    checkFeed true feeds channelId feedUrl fetched deliverOk now
      = ⟨feeds, [], false, false⟩ := by
  simp [checkFeed, hc, hu, ha]

/-- Claim C9, witness at a concrete input. -/
theorem c9_inactive_witness :
    checkFeed true [("c", [("u", fdInactive)])] "c" "u" (some docOne) (fun _ => true) 7
      = ⟨[("c", [("u", fdInactive)])], [], false, false⟩ :=
  c9_inactive_entry_untouched [("c", [("u", fdInactive)])] "c" "u" [("u", fdInactive)]
    fdInactive (some docOne) (fun _ => true) 7 rfl rfl rfl

/-- Claim C8: a per-item delivery failure aborts neither the rest of
the batch nor the watermark update: for any two delivery oracles the
poll attempts exactly the same items in the same order and produces
exactly the same registry, the attempted batch is the full capped
batch computed from the document, and the watermark afterwards is
the guid of the newest document item, regardless of delivery
outcomes. -/
theorem c8_delivery_failure_isolated (feeds : Registry) (channelId feedUrl : String)
    (cf : ChannelFeeds) (fi : FeedData) (feed : ParsedFeed) (latest : FeedItem)
    (restItems : List FeedItem) (deliverOk1 deliverOk2 : FeedItem → Bool) (now : Nat)
    (hc : mapGet channelId feeds = some cf)
    (hu : mapGet feedUrl cf = some fi)
    (ha : fi.active = true)
    (hi : feed.items = latest :: restItems)
    (hfc : firstCheckOrNew fi.lastPostId latest.guid = true) :
    (checkFeed true feeds channelId feedUrl (some feed) deliverOk1 now).feeds
      = (checkFeed true feeds channelId feedUrl (some feed) deliverOk2 now).feeds ∧
    (checkFeed true feeds channelId feedUrl (some feed) deliverOk1 now).delivered.map Prod.fst
      = (checkFeed true feeds channelId feedUrl (some feed) deliverOk2 now).delivered.map Prod.fst ∧
    (checkFeed true feeds channelId feedUrl (some feed) deliverOk1 now).delivered.map Prod.fst
      = (collectNewItems fi.lastPostId [] feed.items).reverse ∧
    mapGet feedUrl (entriesOf channelId
        (checkFeed true feeds channelId feedUrl (some feed) deliverOk1 now).feeds)
      = some { fi with
               title := feed.title, description := feed.description,
               lastPostId := some latest.guid, lastChecked := some now } := by
  have e1 := checkFeed_new_branch feeds channelId feedUrl cf fi feed latest restItems
    deliverOk1 now hc hu ha hi hfc
  have e2 := checkFeed_new_branch feeds channelId feedUrl cf fi feed latest restItems
    deliverOk2 now hc hu ha hi hfc
  rw [e1, e2]
  refine ⟨rfl, ?_, ?_, ?_⟩
  · simp [map_fst_dispatchAll]
  · simp [map_fst_dispatchAll, hi]
  · simp [entriesOf, mapGet_mapSet_self]

/-- Claim C8, witness at a concrete input with one all-failing and
one all-succeeding oracle. -/
theorem c8_delivery_failure_witness :
    (checkFeed true [("c", [("u", fdB)])] "c" "u" (some docABC) (fun _ => false) 7).feeds
      = (checkFeed true [("c", [("u", fdB)])] "c" "u" (some docABC) (fun _ => true) 7).feeds ∧
    (checkFeed true [("c", [("u", fdB)])] "c" "u" (some docABC)
        (fun _ => false) 7).delivered.map Prod.fst
      = (checkFeed true [("c", [("u", fdB)])] "c" "u" (some docABC)
        (fun _ => true) 7).delivered.map Prod.fst ∧
    (checkFeed true [("c", [("u", fdB)])] "c" "u" (some docABC)
        (fun _ => false) 7).delivered.map Prod.fst
      = (collectNewItems fdB.lastPostId [] docABC.items).reverse ∧
    mapGet "u" (entriesOf "c"
        (checkFeed true [("c", [("u", fdB)])] "c" "u" (some docABC)
          (fun _ => false) 7).feeds)
      = some { fdB with
               title := docABC.title, description := docABC.description,
               lastPostId := some itA.guid, lastChecked := some 7 } :=
  c8_delivery_failure_isolated [("c", [("u", fdB)])] "c" "u" [("u", fdB)] fdB
    docABC itA [itB, itC] (fun _ => false) (fun _ => true) 7
    rfl rfl rfl rfl (by decide)

theorem mapGet_mem (k : String) (v : α) (m : List (String × α))
    (h : mapGet k m = some v) : (k, v) ∈ m := by
  induction m with
  | nil => simp [mapGet] at h
  | cons hd tl ih =>
    obtain ⟨k1, v1⟩ := hd
    by_cases h1 : k1 = k
    · rw [mapGet, if_pos h1] at h
      injection h with hv
      subst hv
      subst h1
      exact List.mem_cons_self _ _
    · rw [mapGet, if_neg h1] at h
      exact List.mem_cons_of_mem _ (ih h)

theorem length_mapDelete_le (k : String) (m : List (String × α)) :
    (mapDelete k m).length ≤ m.length := by
  induction m with
  | nil => simp [mapDelete]
  | cons hd tl ih =>
    obtain ⟨k1, v1⟩ := hd
    by_cases h1 : k1 = k
    · simp [mapDelete, h1]
    · simp only [mapDelete, if_neg h1, List.length_cons]
      omega

theorem mapGet_eq_none_of_not_mem (k : String) (m : List (String × α))
    (h : k ∉ m.map Prod.fst) : mapGet k m = none := by
  induction m with
  | nil => rfl
  | cons hd tl ih =>
    obtain ⟨k1, v1⟩ := hd
    have h1 : k1 ≠ k := fun hh => h (by simp [hh])
    have h2 : k ∉ tl.map Prod.fst := fun hh => h (by simp [hh])
    rw [mapGet, if_neg h1]
    exact ih h2

theorem mapGet_mapDelete_self (k : String) (m : List (String × α))
    (hnd : (m.map Prod.fst).Nodup) : mapGet k (mapDelete k m) = none := by
  induction m with
  | nil => rfl
  | cons hd tl ih =>
    obtain ⟨k1, v1⟩ := hd
    simp only [List.map_cons, List.nodup_cons] at hnd
    by_cases h1 : k1 = k
    · rw [mapDelete, if_pos h1]
      exact mapGet_eq_none_of_not_mem k tl (h1 ▸ hnd.1)
    · rw [mapDelete, if_neg h1, mapGet, if_neg h1]
      exact ih hnd.2

theorem mapHas_append_one (k k2 : String) (v : α) (m : List (String × α))
    (h : mapHas k2 m = false) (hne : k ≠ k2) :
    mapHas k2 (m ++ [(k, v)]) = false := by
  rw [mapHas, mapGet_append_of_not_has _ _ _ h]
  simp [mapGet, hne]

theorem sizeInv_mapSet (cfg : Config) (feeds : Registry) (k : String) (v : ChannelFeeds)
    (hinv : sizeInv cfg feeds) (hv : v.length ≤ cfg.maxFeedsPerChannel) :
    sizeInv cfg (mapSet k v feeds) := by
  intro p hp
  rcases mem_mapSet _ _ _ _ hp with h | h
  · rw [h]
    exact hv
  · exact hinv p h

/-- Claim C5, counterexample: a registry whose channel is at the
default capacity of 10 and already holds the url u0; the duplicate
add fails with the capacity error, not AlreadyExists, because
addFeed checks capacity before the duplicate check. -/
theorem c5_alreadyexists_refuted_at_capacity :
    mapHas "u0" (entriesOf "c" regFull) = true ∧
    (addFeed defaultConfig "c" "u0" none (some docOne) regFull).1
      = AddOutcome.limitExceeded ∧
    AddOutcome.limitExceeded ≠ AddOutcome.alreadyExists := by
  decide

/-- Claim C5, amended: when (destination, url) is already present and
the validation poll succeeds, the add always fails and leaves the
registry (in particular the entry set of the destination) unchanged;
the error is AlreadyExists exactly when the destination is strictly
below capacity, and LimitExceeded exactly when it is at or above
capacity (the capacity check precedes the duplicate check). -/
theorem c5_duplicate_add_fails_unchanged (cfg : Config) (channelId feedUrl : String)
    (interval : Option Nat) (feed : ParsedFeed) (feeds : Registry) (cf : ChannelFeeds)
    (hc : mapGet channelId feeds = some cf)
    (hp : mapHas feedUrl cf = true) :
    (addFeed cfg channelId feedUrl interval (some feed) feeds).2 = feeds ∧
    ((addFeed cfg channelId feedUrl interval (some feed) feeds).1
        = AddOutcome.alreadyExists ↔ cf.length < cfg.maxFeedsPerChannel) ∧
    ((addFeed cfg channelId feedUrl interval (some feed) feeds).1
        = AddOutcome.limitExceeded ↔ cfg.maxFeedsPerChannel ≤ cf.length) := by
  have hh : mapHas channelId feeds = true := mapHas_of_mapGet_some _ _ _ hc
  have e : addFeed cfg channelId feedUrl interval (some feed) feeds =
      (if cfg.maxFeedsPerChannel ≤ cf.length then (AddOutcome.limitExceeded, feeds)
        else (AddOutcome.alreadyExists, feeds)) := by
    by_cases hcap : cfg.maxFeedsPerChannel ≤ cf.length <;>
      simp [addFeed, hh, entriesOf, hc, hp, hcap]
  rw [e]
  by_cases hcap : cfg.maxFeedsPerChannel ≤ cf.length <;>
    · simp [hcap]
      try omega

/-- Claim C5, witness for the amended theorem at a concrete input
below capacity. -/
theorem c5_duplicate_add_witness :
    (addFeed defaultConfig "c" "u" none (some docOne) [("c", [("u", fdB)])]).2
      = [("c", [("u", fdB)])] ∧
    ((addFeed defaultConfig "c" "u" none (some docOne) [("c", [("u", fdB)])]).1
        = AddOutcome.alreadyExists ↔ [("u", fdB)].length < defaultConfig.maxFeedsPerChannel) ∧
    ((addFeed defaultConfig "c" "u" none (some docOne) [("c", [("u", fdB)])]).1
        = AddOutcome.limitExceeded ↔ defaultConfig.maxFeedsPerChannel ≤ [("u", fdB)].length) :=
  c5_duplicate_add_fails_unchanged defaultConfig "c" "u" none docOne
    [("c", [("u", fdB)])] [("u", fdB)] rfl rfl

theorem loadChannel_fresh (cfg : Config) (cf : List (String × SavedFeed))
    (existing : ChannelFeeds)
    (hnd : (cf.map Prod.fst).Nodup)
    (hdisj : ∀ u ∈ cf.map Prod.fst, mapHas u existing = false) :
    loadChannel cfg cf existing
      = existing ++ cf.map (fun p => (p.1, loadEntry cfg p.2)) := by
  induction cf generalizing existing with
  | nil => simp [loadChannel]
  | cons hd tl ih =>
    obtain ⟨u, sfd⟩ := hd
    simp only [List.map_cons, List.nodup_cons] at hnd
    have hu : mapHas u existing = false := hdisj u (by simp)
    have hdisj2 : ∀ u2 ∈ tl.map Prod.fst,
        mapHas u2 (existing ++ [(u, loadEntry cfg sfd)]) = false := by
      intro u2 hu2
      exact mapHas_append_one u u2 _ existing (hdisj u2 (by simp [hu2]))
        (fun hh => hnd.1 (hh ▸ hu2))
    rw [loadChannel, mapSet_of_not_has _ _ _ hu, ih _ hnd.2 hdisj2]
    simp

theorem loadAll_fresh (cfg : Config) (data : Snapshot) (feeds : Registry)
    (hnd : (data.map Prod.fst).Nodup)
    (hdisj : ∀ ch ∈ data.map Prod.fst, mapHas ch feeds = false) :
    loadAll cfg data feeds
      = feeds ++ data.map (fun c => (c.1, loadChannel cfg c.2 [])) := by
  induction data generalizing feeds with
  | nil => simp [loadAll]
  | cons hd tl ih =>
    obtain ⟨ch, cfS⟩ := hd
    simp only [List.map_cons, List.nodup_cons] at hnd
    have hch : mapHas ch feeds = false := hdisj ch (by simp)
    have hdisj2 : ∀ ch2 ∈ tl.map Prod.fst,
        mapHas ch2 (feeds ++ [(ch, loadChannel cfg cfS [])]) = false := by
      intro ch2 hch2
      exact mapHas_append_one ch ch2 _ feeds (hdisj ch2 (by simp [hch2]))
        (fun hh => hnd.1 (hh ▸ hch2))
    have hex : entriesOf ch (mapSet ch [] feeds) = [] := by
      simp [entriesOf, mapGet_mapSet_self]
    rw [loadAll]
    simp only [hch, Bool.false_eq_true, if_false, hex]
    rw [mapSet_of_not_has _ _ _ hch, mapSet_append_last _ _ _ _ hch, ih _ hnd.2 hdisj2]
    simp

theorem load_save_roundtrip_core (cfg : Config) (r : Registry)
    (hnd : (r.map Prod.fst).Nodup)
    (hnd2 : ∀ c ∈ r, (c.2.map Prod.fst).Nodup) :
    loadFeeds cfg (some (saveFeeds r)) []
      = r.map (fun c => (c.1, c.2.map (fun p => (p.1, loadEntry cfg (saveEntry p.2))))) := by
  rw [loadFeeds]
  rw [loadAll_fresh cfg (saveFeeds r) []
    (by simpa [saveFeeds, List.map_map, Function.comp] using hnd)
    (by intro ch hch; rfl)]
  simp only [List.nil_append, saveFeeds, List.map_map]
  apply List.map_congr_left
  intro c hcmem
  simp only [Function.comp_apply]
  congr 1
  rw [loadChannel_fresh cfg _ []
    (by simpa [List.map_map, Function.comp] using hnd2 c hcmem)
    (by intro u hu; rfl)]
  simp [List.map_map, Function.comp]

theorem loadFeeds_saveFeeds_preserves_sizeInv (cfg : Config) (r : Registry)
    (hnd : (r.map Prod.fst).Nodup)
    (hnd2 : ∀ c ∈ r, (c.2.map Prod.fst).Nodup)
    (hinv : sizeInv cfg r) :
    sizeInv cfg (loadFeeds cfg (some (saveFeeds r)) []) := by
  rw [load_save_roundtrip_core cfg r hnd hnd2]
  intro p hp
  rcases List.mem_map.mp hp with ⟨c, hcmem, hceq⟩
  rw [← hceq]
  simpa using hinv c hcmem

theorem addFeed_preserves_sizeInv (cfg : Config) (channelId feedUrl : String)
    (interval : Option Nat) (validated : Option ParsedFeed) (feeds : Registry)
    (hinv : sizeInv cfg feeds) :
    sizeInv cfg (addFeed cfg channelId feedUrl interval validated feeds).2 := by
  cases validated with
  | none => simpa [addFeed] using hinv
  | some feed =>
    by_cases hhas : mapHas channelId feeds = true
    · obtain ⟨cf, hcf⟩ : ∃ cf, mapGet channelId feeds = some cf := by
        rcases hq : mapGet channelId feeds with _ | cf
        · simp [mapHas, hq] at hhas
        · exact ⟨cf, rfl⟩
      by_cases hcap : cfg.maxFeedsPerChannel ≤ cf.length
      · simpa [addFeed, hhas, entriesOf, hcf, hcap] using hinv
      · by_cases hdup : mapHas feedUrl cf = true
        · simpa [addFeed, hhas, entriesOf, hcf, hcap, hdup] using hinv
        · simp only [addFeed, hhas, if_true, entriesOf, hcf, Option.getD_some,
            if_neg hcap, hdup, Bool.false_eq_true, if_false]
          refine sizeInv_mapSet cfg feeds channelId _ hinv ?_
          rw [length_mapSet_not _ _ _ (by simpa using hdup)]
          omega
    · have hhas2 : mapHas channelId feeds = false := by simpa using hhas
      have hinv1 : sizeInv cfg (mapSet channelId [] feeds) :=
        sizeInv_mapSet cfg feeds channelId [] hinv (by simp)
      have hex : entriesOf channelId (mapSet channelId [] feeds) = [] := by
        simp [entriesOf, mapGet_mapSet_self]
      by_cases hcap : cfg.maxFeedsPerChannel ≤ 0
      · simpa [addFeed, hhas2, hex, hcap] using hinv1
      · have hdup0 : mapHas feedUrl ([] : ChannelFeeds) = false := rfl
        simp only [addFeed, hhas2, Bool.false_eq_true, if_false, hex,
          List.length_nil, if_neg hcap, hdup0]
        refine sizeInv_mapSet cfg (mapSet channelId [] feeds) channelId _ hinv1 ?_
        simp only [mapSet, List.length_cons, List.length_nil]
        omega

theorem removeFeed_preserves_sizeInv (cfg : Config) (channelId feedUrl : String)
    (feeds : Registry) (hinv : sizeInv cfg feeds) :
    sizeInv cfg (removeFeed channelId feedUrl feeds).2 := by
  rcases hc : mapGet channelId feeds with _ | cf
  · simpa [removeFeed, hc] using hinv
  · rcases hu : mapGet feedUrl cf with _ | fd
    · simpa [removeFeed, hc, hu] using hinv
    · have hlen : cf.length ≤ cfg.maxFeedsPerChannel :=
        hinv (channelId, cf) (mapGet_mem _ _ _ hc)
      by_cases hz : (mapDelete feedUrl cf).length = 0
      · simp only [removeFeed, hc, hu, hz, if_true]
        intro p hp
        exact hinv p (mem_mapDelete _ _ _ hp)
      · simp only [removeFeed, hc, hu, hz, if_false]
        refine sizeInv_mapSet cfg feeds channelId _ hinv ?_
        exact le_trans (length_mapDelete_le _ _) hlen

theorem checkFeed_preserves_sizeInv (cfg : Config) (hasClient : Bool) (feeds : Registry)
    (channelId feedUrl : String) (fetched : Option ParsedFeed)
    (deliverOk : FeedItem → Bool) (now : Nat) (hinv : sizeInv cfg feeds) :
    sizeInv cfg (checkFeed hasClient feeds channelId feedUrl fetched deliverOk now).feeds := by
  cases hasClient with
  | false => simpa [checkFeed] using hinv
  | true =>
    simp only [checkFeed]
    rcases hc : mapGet channelId feeds with _ | cf
    · simpa using hinv
    · rcases hu : mapGet feedUrl cf with _ | fi
      · simpa [hu] using hinv
      · have hset : ∀ fd : FeedData,
            sizeInv cfg (mapSet channelId (mapSet feedUrl fd cf) feeds) := by
          intro fd
          refine sizeInv_mapSet cfg feeds channelId _ hinv ?_
          rw [length_mapSet_has _ _ _ (mapHas_of_mapGet_some _ _ _ hu)]
          exact hinv (channelId, cf) (mapGet_mem _ _ _ hc)
        by_cases ha : fi.active = false
        · simpa [hu, ha] using hinv
        · cases fetched with
          | none => simpa [hu, ha] using hinv
          | some feed =>
            rcases hitems : feed.items with _ | ⟨latest, restItems⟩
            · simpa [hu, ha, hitems] using hset _
            · by_cases hfc : firstCheckOrNew fi.lastPostId latest.guid = true
              · simpa [hu, ha, hitems, hfc] using hset _
              · simpa [hu, ha, hitems, hfc] using hset _

theorem addFeed_at_capacity (cfg : Config) (channelId feedUrl : String)
    (interval : Option Nat) (feed : ParsedFeed) (feeds : Registry) (cf : ChannelFeeds)
    (hc : mapGet channelId feeds = some cf)
    (hlen : cf.length = cfg.maxFeedsPerChannel) :
    (addFeed cfg channelId feedUrl interval (some feed) feeds).1
      = AddOutcome.limitExceeded ∧
    (addFeed cfg channelId feedUrl interval (some feed) feeds).2 = feeds := by
  have hh : mapHas channelId feeds = true := mapHas_of_mapGet_some _ _ _ hc
  have hcap : cfg.maxFeedsPerChannel ≤ cf.length := le_of_eq hlen.symm
  constructor
  · simp [addFeed, hh, entriesOf, hc, hcap]
  · simp [addFeed, hh, entriesOf, hc, hcap]

/-- Claim C6: every channel holds at most maxFeedsPerChannel entries,
an invariant preserved by every registry-mutating operation of the
program: addFeed, removeFeed, checkFeed, and loadFeeds as the
program invokes it, namely on absent storage or on a snapshot that
saveFeeds wrote from a registry satisfying the bound (saveFeeds
itself does not mutate the registry; getChannelFeeds and
getStatistics are read-only); and an add to a destination already at
the cap fails with the capacity error and leaves the registry
unchanged (no entry created, no eviction). -/
theorem c6_capacity_bound (cfg : Config) :
    (∀ channelId feedUrl interval validated feeds, sizeInv cfg feeds →
      sizeInv cfg (addFeed cfg channelId feedUrl interval validated feeds).2) ∧
    (∀ channelId feedUrl feeds, sizeInv cfg feeds →
      sizeInv cfg (removeFeed channelId feedUrl feeds).2) ∧
    (∀ hasClient feeds channelId feedUrl fetched deliverOk now, sizeInv cfg feeds →
      sizeInv cfg (checkFeed hasClient feeds channelId feedUrl fetched deliverOk now).feeds) ∧
    (∀ channelId feedUrl interval feed feeds cf,
      mapGet channelId feeds = some cf →
      cf.length = cfg.maxFeedsPerChannel →
      (addFeed cfg channelId feedUrl interval (some feed) feeds).1
        = AddOutcome.limitExceeded ∧
      (addFeed cfg channelId feedUrl interval (some feed) feeds).2 = feeds) ∧
    (∀ r : Registry, (r.map Prod.fst).Nodup → (∀ c ∈ r, (c.2.map Prod.fst).Nodup) →
      sizeInv cfg r → sizeInv cfg (loadFeeds cfg (some (saveFeeds r)) [])) ∧
    sizeInv cfg (loadFeeds cfg none []) :=
  ⟨fun channelId feedUrl interval validated feeds hinv =>
      addFeed_preserves_sizeInv cfg channelId feedUrl interval validated feeds hinv,
    fun channelId feedUrl feeds hinv =>
      removeFeed_preserves_sizeInv cfg channelId feedUrl feeds hinv,
    fun hasClient feeds channelId feedUrl fetched deliverOk now hinv =>
      checkFeed_preserves_sizeInv cfg hasClient feeds channelId feedUrl fetched
        deliverOk now hinv,
    fun channelId feedUrl interval feed feeds cf hc hlen =>
      addFeed_at_capacity cfg channelId feedUrl interval feed feeds cf hc hlen,
    fun r hnd hnd2 hinv =>
      loadFeeds_saveFeeds_preserves_sizeInv cfg r hnd hnd2 hinv,
    fun p hp => absurd hp (by simp [loadFeeds])⟩

/-- Claim C6, witness at concrete inputs, including an add to a
channel at the default capacity of 10 and a load of a saved
snapshot. -/
theorem c6_capacity_witness :
    sizeInv defaultConfig
      (addFeed defaultConfig "c" "u2" none (some docOne) [("c", [("u", fdB)])]).2 ∧
    sizeInv defaultConfig (removeFeed "c" "u" [("c", [("u", fdB)])]).2 ∧
    sizeInv defaultConfig
      (checkFeed true [("c", [("u", fdB)])] "c" "u" (some docABC) (fun _ => true) 7).feeds ∧
    ((addFeed defaultConfig "c" "u10" none (some docOne) regFull).1
        = AddOutcome.limitExceeded ∧
      (addFeed defaultConfig "c" "u10" none (some docOne) regFull).2 = regFull) ∧
    sizeInv defaultConfig
      (loadFeeds defaultConfig (some (saveFeeds [("c", [("u", fdB)])])) []) ∧
    sizeInv defaultConfig (loadFeeds defaultConfig none []) :=
  ⟨(c6_capacity_bound defaultConfig).1 "c" "u2" none (some docOne)
      [("c", [("u", fdB)])] (by decide),
    (c6_capacity_bound defaultConfig).2.1 "c" "u" [("c", [("u", fdB)])] (by decide),
    (c6_capacity_bound defaultConfig).2.2.1 true [("c", [("u", fdB)])] "c" "u"
      (some docABC) (fun _ => true) 7 (by decide),
    (c6_capacity_bound defaultConfig).2.2.2.1 "c" "u10" none docOne regFull cfFull
      rfl (by decide),
    (c6_capacity_bound defaultConfig).2.2.2.2.1 [("c", [("u", fdB)])]
      (by decide) (by decide) (by decide),
    (c6_capacity_bound defaultConfig).2.2.2.2.2⟩

theorem mapSet_ne_nil (k : String) (v : α) (m : List (String × α)) :
    mapSet k v m ≠ [] := by
  cases m with
  | nil => simp [mapSet]
  | cons hd tl =>
    obtain ⟨k1, v1⟩ := hd
    by_cases h1 : k1 = k <;> simp [mapSet, h1]

theorem addFeed_preserves_nonEmptyInv (cfg : Config)
    (hcap1 : 1 ≤ cfg.maxFeedsPerChannel) (channelId feedUrl : String)
    (interval : Option Nat) (validated : Option ParsedFeed)
    (feeds : Registry) (hinv : nonEmptyInv feeds) :
    nonEmptyInv (addFeed cfg channelId feedUrl interval validated feeds).2 := by
  cases validated with
  | none => simpa [addFeed] using hinv
  | some feed =>
    by_cases hhas : mapHas channelId feeds = true
    · obtain ⟨cf, hcf⟩ : ∃ cf, mapGet channelId feeds = some cf := by
        rcases hq : mapGet channelId feeds with _ | cf
        · simp [mapHas, hq] at hhas
        · exact ⟨cf, rfl⟩
      by_cases hcap : cfg.maxFeedsPerChannel ≤ cf.length
      · simpa [addFeed, hhas, entriesOf, hcf, hcap] using hinv
      · by_cases hdup : mapHas feedUrl cf = true
        · simpa [addFeed, hhas, entriesOf, hcf, hcap, hdup] using hinv
        · simp only [addFeed, hhas, if_true, entriesOf, hcf, Option.getD_some,
            if_neg hcap, hdup, Bool.false_eq_true, if_false]
          intro p hp
          rcases mem_mapSet _ _ _ _ hp with h | h
          · rw [h]
            exact mapSet_ne_nil _ _ _
          · exact hinv p h
    · have hhas2 : mapHas channelId feeds = false := by simpa using hhas
      have hex : entriesOf channelId (mapSet channelId [] feeds) = [] := by
        simp [entriesOf, mapGet_mapSet_self]
      have hcap : ¬ (cfg.maxFeedsPerChannel ≤ (0 : Nat)) := by omega
      have hdup0 : mapHas feedUrl ([] : ChannelFeeds) = false := rfl
      simp only [addFeed, hhas2, Bool.false_eq_true, if_false, hex,
        List.length_nil, if_neg hcap, hdup0]
      rw [mapSet_of_not_has _ _ _ hhas2, mapSet_append_last _ _ _ _ hhas2]
      intro p hp
      rcases List.mem_append.mp hp with h | h
      · exact hinv p h
      · simp only [List.mem_singleton] at h
        rw [h]
        exact mapSet_ne_nil _ _ _

theorem removeFeed_preserves_nonEmptyInv (channelId feedUrl : String)
    (feeds : Registry) (hinv : nonEmptyInv feeds) :
    nonEmptyInv (removeFeed channelId feedUrl feeds).2 := by
  rcases hc : mapGet channelId feeds with _ | cf
  · simpa [removeFeed, hc] using hinv
  · rcases hu : mapGet feedUrl cf with _ | fd
    · simpa [removeFeed, hc, hu] using hinv
    · by_cases hz : (mapDelete feedUrl cf).length = 0
      · simp only [removeFeed, hc, hu, hz, if_true]
        intro p hp
        exact hinv p (mem_mapDelete _ _ _ hp)
      · simp only [removeFeed, hc, hu, hz, if_false]
        intro p hp
        rcases mem_mapSet _ _ _ _ hp with h | h
        · rw [h]
          simp only [ne_eq]
          intro hnil
          exact hz (by simp [hnil])
        · exact hinv p h

theorem removeFeed_deletes_empty_channel (channelId feedUrl : String)
    (feeds : Registry) (cf : ChannelFeeds) (fd : FeedData)
    (hnd : (feeds.map Prod.fst).Nodup)
    (hc : mapGet channelId feeds = some cf)
    (hu : mapGet feedUrl cf = some fd)
    (hz : (mapDelete feedUrl cf).length = 0) :
    mapGet channelId (removeFeed channelId feedUrl feeds).2 = none := by
  simp only [removeFeed, hc, hu, hz, if_true]
  exact mapGet_mapDelete_self channelId feeds hnd

theorem stats_counts_nonempty (feeds : Registry) (hinv : nonEmptyInv feeds) :
    statsTotalChannels feeds = (feeds.filter (fun p => !p.2.isEmpty)).length := by
  unfold statsTotalChannels
  have hfe : feeds.filter (fun p => !p.2.isEmpty) = feeds := by
    apply List.filter_eq_self.mpr
    intro p hp
    simpa using hinv p hp
  rw [hfe]

/-- Claim C10: every destination key of the in-memory registry maps
to a non-empty feed set: the invariant is preserved by addFeed (for
any capacity of at least one, in particular the default 10) and by
removeFeed; removing the last feed of a destination deletes the
destination key itself; getChannelFeeds of an unknown destination is
the empty sequence; and the totalChannels statistic counts exactly
the destinations holding at least one feed. -/
theorem c10_nonempty_destination_invariant (cfg : Config)
    (hcap1 : 1 ≤ cfg.maxFeedsPerChannel) :
    (∀ channelId feedUrl interval validated feeds, nonEmptyInv feeds →
      nonEmptyInv (addFeed cfg channelId feedUrl interval validated feeds).2) ∧
    (∀ channelId feedUrl feeds, nonEmptyInv feeds →
      nonEmptyInv (removeFeed channelId feedUrl feeds).2) ∧
    (∀ channelId feedUrl feeds cf fd, (feeds.map Prod.fst).Nodup →
      mapGet channelId feeds = some cf → mapGet feedUrl cf = some fd →
      (mapDelete feedUrl cf).length = 0 →
      mapGet channelId (removeFeed channelId feedUrl feeds).2 = none) ∧
    (∀ channelId feeds, mapGet channelId feeds = none →
      getChannelFeeds channelId feeds = []) ∧
    (∀ feeds, nonEmptyInv feeds →
      statsTotalChannels feeds = (feeds.filter (fun p => !p.2.isEmpty)).length) :=
  ⟨fun channelId feedUrl interval validated feeds hinv =>
      addFeed_preserves_nonEmptyInv cfg hcap1 channelId feedUrl interval validated feeds hinv,
    fun channelId feedUrl feeds hinv =>
      removeFeed_preserves_nonEmptyInv channelId feedUrl feeds hinv,
    fun channelId feedUrl feeds cf fd hnd hc hu hz =>
      removeFeed_deletes_empty_channel channelId feedUrl feeds cf fd hnd hc hu hz,
    fun channelId feeds hc => by simp [getChannelFeeds, hc],
    fun feeds hinv => stats_counts_nonempty feeds hinv⟩

/-- Claim C10, witness at concrete inputs, including removal of the
last feed of a destination. -/
theorem c10_nonempty_witness :
    nonEmptyInv (addFeed defaultConfig "c2" "u" none (some docOne) [("c", [("u", fdB)])]).2 ∧
    nonEmptyInv (removeFeed "c" "u" [("c", [("u", fdB)])]).2 ∧
    mapGet "c" (removeFeed "c" "u" [("c", [("u", fdB)])]).2 = none ∧
    getChannelFeeds "zzz" [("c", [("u", fdB)])] = [] ∧
    statsTotalChannels [("c", [("u", fdB)])]
      = ([("c", [("u", fdB)])].filter (fun p => !p.2.isEmpty)).length :=
  ⟨(c10_nonempty_destination_invariant defaultConfig (by decide)).1 "c2" "u" none
      (some docOne) [("c", [("u", fdB)])] (by decide),
    (c10_nonempty_destination_invariant defaultConfig (by decide)).2.1 "c" "u"
      [("c", [("u", fdB)])] (by decide),
    (c10_nonempty_destination_invariant defaultConfig (by decide)).2.2.1 "c" "u"
      [("c", [("u", fdB)])] [("u", fdB)] fdB (by decide) (by decide) (by decide) (by decide),
    (c10_nonempty_destination_invariant defaultConfig (by decide)).2.2.2.1 "zzz"
      [("c", [("u", fdB)])] (by decide),
    (c10_nonempty_destination_invariant defaultConfig (by decide)).2.2.2.2
      [("c", [("u", fdB)])] (by decide)⟩

theorem loadEntry_saveEntry (cfg : Config) (fd : FeedData)
    (hwm : fd.lastPostId ≠ some "") (hiv : fd.interval ≠ 0) :
    coreOf (loadEntry cfg (saveEntry fd)) = coreOf fd := by
  obtain ⟨url, interval, lc, lp, act, ti, de⟩ := fd
  simp only [FeedData.lastPostId] at hwm
  simp only [FeedData.interval] at hiv
  cases act <;> rcases lp with _ | s <;>
    simp_all [saveEntry, loadEntry, coreOf, jsOrNat0, jsOrNullStr]

/-- Claim C7, counterexample: a registry whose single entry has the
empty string as its watermark (reachable, since checkFeed stores the
first guid verbatim); saving and loading turns that watermark into
the absent watermark, because loadFeeds applies the JavaScript-falsy
default lastPostId OR null, so the round-trip does not reproduce the
same watermark. -/
theorem c7_roundtrip_refuted_empty_watermark :
    fdEmptyGuid.lastPostId = some "" ∧
    (mapGet "u" (entriesOf "c" (loadFeeds defaultConfig
        (some (saveFeeds [("c", [("u", fdEmptyGuid)])])) []))).map FeedData.lastPostId
      = some none := by
  decide

/-- Claim C7, amended: for every registry whose keys are unique (an
intrinsic Map invariant) and in which no watermark is the empty
string and no interval is zero, Save followed by Load into an empty
registry reproduces the same destinations, URLs, watermarks,
intervals and active flags; and Load when the storage file is absent
yields an empty registry rather than an error. -/
theorem c7_save_load_roundtrip (cfg : Config) (r : Registry) (hwf : wfRegistry r) :
    registryView (loadFeeds cfg (some (saveFeeds r)) []) = registryView r ∧
    loadFeeds cfg none [] = [] := by
  obtain ⟨hnd, hnd2, hfields⟩ := hwf
  refine ⟨?_, rfl⟩
  rw [load_save_roundtrip_core cfg r hnd hnd2]
  simp only [registryView, List.map_map]
  apply List.map_congr_left
  intro c hcmem
  simp only [Function.comp_apply]
  congr 1
  simp only [List.map_map]
  apply List.map_congr_left
  intro p hpmem
  simp only [Function.comp_apply]
  congr 1
  exact loadEntry_saveEntry cfg p.2 (hfields c hcmem p hpmem).1 (hfields c hcmem p hpmem).2

/-- Claim C7, witness for the amended theorem at a concrete input. -/
theorem c7_save_load_witness :
    registryView (loadFeeds defaultConfig
        (some (saveFeeds [("c", [("u", fdB)])])) [])
      = registryView [("c", [("u", fdB)])] ∧
    loadFeeds defaultConfig none [] = [] :=
  c7_save_load_roundtrip defaultConfig [("c", [("u", fdB)])] (by decide)


end CarterBot
